import Mathlib

/-!
Verification of the BF-Job-System fork-join task scheduler core.

The definitions below are a shallow embedding of the C++ sources:

* `SPMCDeque` embeds the Chase-Lev style work-stealing deque from
  `job_queue.hpp` (`SPMCDeque<T>::Push` / `Pop`).  Indices are signed 64-bit
  integers in the source and are modelled as `Int`; the backing array of
  `capacity` slots is a `List`; `index & m_CapacityMask` becomes
  `Int.land index capacityMask`.  Atomic loads/stores and the seq_cst fences
  order a single thread's steps here, so the sequential semantics below is the
  source's code path with every atomic read returning the last written value;
  in particular the single-element CAS in `Pop` succeeds (no concurrent thief
  is modelled).

* The scheduler model (`JobSystemState`, `TaskSubmit`, `TaskOnFinish`,
  `TaskMake`, `TaskAddContinuation`, ...) embeds `job_system.cpp`.  A
  `TaskPtr` (worker id + slot index) is modelled as a single index into a
  global task store `tasks : List TaskCell`; the null `TaskPtr` is `none`.
  The per-worker SPMC deques and the main-thread `LockedQueue` are modelled
  as unbounded lists at this layer (the source spins until a push succeeds,
  so a completed submission always appends exactly one element); the bounded
  behaviour of the deque itself is verified separately on `SPMCDeque`.
  `JobAssert` failures and the `__builtin_unreachable` default branch are
  modelled as `none`.  Condition-variable signalling
  (`WakeUpOneWorker` / `WakeUpAllWorkers`) is modelled as a list of emitted
  `WakeEvent`s.  The `uint32` counter `num_available_jobs` and the `int32`
  task counters hold values far below their overflow bounds in any run the
  claims speak about, and are modelled as `Nat` / `Int`.
-/

namespace BFJob

/-- Status codes returned by the SPMC deque (`SPMCDequeStatus` in
`job_queue.hpp`). -/
inductive SPMCDequeStatus where
  | SUCCESS
  | FAILED_RACE
  | FAILED_SIZE
  deriving DecidableEq, Repr

/-- State of `SPMCDeque<T>`: two signed indices, the slot array, the capacity
and the stored `m_CapacityMask` (set to `capacity - 1` by `Initialize`). -/
structure SPMCDeque (α : Type) where
  producerIndex : Int
  consumerIndex : Int
  data : List α
  capacity : Int
  capacityMask : Int
  deriving DecidableEq, Repr

/-- `SPMCDeque<T>::Initialize(memory_backing, capacity)`. -/
def SPMCDeque.Initialize (memory_backing : List α) (capacity : Int) : SPMCDeque α :=
  { producerIndex := 0
    consumerIndex := 0
    data := memory_backing
    capacity := capacity
    capacityMask := capacity - 1 }

/-- Slot number for an index: `m_Data + (index & m_CapacityMask)`. -/
def SPMCDeque.slotOf (d : SPMCDeque α) (index : Int) : Nat :=
  (Int.land index d.capacityMask).toNat

/-- `SPMCDeque<T>::Push` (owner only).  Returns the status together with the
deque state after the call. -/
def SPMCDeque.Push (d : SPMCDeque α) (value : α) : SPMCDequeStatus × SPMCDeque α :=
  let write_index := d.producerIndex
  let read_index := d.consumerIndex
  let size := write_index - read_index
  if size > d.capacityMask then
    (SPMCDequeStatus.FAILED_SIZE, d)
  else
    (SPMCDequeStatus.SUCCESS,
      { d with
        data := d.data.set (d.slotOf write_index) value
        producerIndex := write_index + 1 })

/-- `SPMCDeque<T>::Pop` (owner only).  The middle component is the value
written through `out_value`, or `none` when the call does not write it.
The CAS against a concurrent thief always succeeds in this single-thread
model. -/
def SPMCDeque.Pop [Inhabited α] (d : SPMCDeque α) :
    SPMCDequeStatus × Option α × SPMCDeque α :=
  let producer_index := d.producerIndex - 1
  let d1 := { d with producerIndex := producer_index }
  let consumer_index := d1.consumerIndex
  if consumer_index ≤ producer_index then
    if consumer_index = producer_index then
      -- Only one item in queue: CAS `m_ConsumerIndex` forward, then restore
      -- `m_ProducerIndex` to canonical empty.
      let d2 := { d1 with consumerIndex := consumer_index + 1 }
      (SPMCDequeStatus.SUCCESS,
        some (d2.data.getD (d2.slotOf producer_index) default),
        { d2 with producerIndex := producer_index + 1 })
    else
      (SPMCDequeStatus.SUCCESS,
        some (d1.data.getD (d1.slotOf producer_index) default), d1)
  else
    -- Empty queue, restore to canonical empty.
    (SPMCDequeStatus.FAILED_SIZE, none,
      { d1 with producerIndex := producer_index + 1 })

/-! ## Scheduler model (`job_system.cpp`) -/

/-- `Job::QueueType` (`job_api.hpp`), together with
`k_InvalidQueueType = QueueType(int(QueueType::WORKER) + 1)` from
`job_system.cpp`, which marks a task not currently submitted to any queue. -/
inductive QueueType where
  | NORMAL
  | MAIN
  | WORKER
  | INVALID
  deriving DecidableEq, Repr

/-- A task cell (`Job::Task`).  A `TaskPtr` field is `Option Nat`: an index
into the global task store, or `none` for the null `TaskPtr`.  The opaque
function pointer `fn_storage.fn` is modelled as a `Nat` token.  The inline
`user_data` buffer is not part of this record; `TaskGetData` is modelled
separately on addresses. -/
structure TaskCell where
  fn_storage : Nat
  num_unfinished_tasks : Int
  ref_count : Int
  parent : Option Nat
  first_continuation : Option Nat
  next_continuation : Option Nat
  owning_worker : Nat
  q_type : QueueType
  deriving DecidableEq, Repr

/-- The parts of `Job::ThreadLocalState` the verified operations touch: the
two SPMC deques (modelled as unbounded lists of task indices, push = append)
and the live-task table `allocated_tasks`. -/
structure WorkerState where
  normal_queue : List Nat
  worker_queue : List Nat
  allocated_tasks : List Nat
  deriving DecidableEq, Repr

/-- The parts of `Job::JobSystemContext` the verified operations touch.
`num_workers` is `workers.length`. -/
structure JobSystemState where
  tasks : List TaskCell
  workers : List WorkerState
  main_queue : List Nat
  num_available_jobs : Nat
  deriving DecidableEq, Repr

/-- Condition-variable signals emitted by the scheduler
(`system::WakeUpAllWorkers` / `system::WakeUpOneWorker`). -/
inductive WakeEvent where
  | WakeAll
  | WakeOne
  deriving DecidableEq, Repr

/-- Read the task cell a task index denotes (`task::TaskPtrToPointer` plus the
subsequent field loads). -/
def getTask (st : JobSystemState) (i : Nat) : Option TaskCell :=
  st.tasks.get? i

/-- Write back a task cell (a store through the pointer). -/
def setTask (st : JobSystemState) (i : Nat) (c : TaskCell) : JobSystemState :=
  { st with tasks := st.tasks.set i c }

/-- `Job::TaskSubmit(self, queue)`.  `cur` is the index of the calling
worker (`worker::GetCurrent()`).  Returns the new state and the emitted wake
events, or `none` on a `JobAssert` failure (task already submitted), an
invalid index, or the unreachable `switch` default. -/
def TaskSubmit (st : JobSystemState) (cur self : Nat) (queue0 : QueueType) :
    Option (JobSystemState × List WakeEvent) :=
  match getTask st self with
  | none => none
  | some cell =>
    -- JobAssert(self->q_type == k_InvalidQueueType, ...)
    if cell.q_type ≠ QueueType.INVALID then none
    else
      let num_workers := st.workers.length
      -- If we only have one thread running using the worker queue is invalid.
      let queue := if num_workers = 1 ∧ queue0 = QueueType.WORKER then
        QueueType.NORMAL else queue0
      match st.workers.get? cur with
      | none => none
      | some worker =>
        let st1 := setTask st self { cell with q_type := queue }
        let routed : Option JobSystemState :=
          match queue with
          | QueueType.NORMAL =>
            some { st1 with
              workers := st1.workers.set cur
                { worker with normal_queue := worker.normal_queue ++ [self] } }
          | QueueType.MAIN =>
            some { st1 with main_queue := st1.main_queue ++ [self] }
          | QueueType.WORKER =>
            some { st1 with
              workers := st1.workers.set cur
                { worker with worker_queue := worker.worker_queue ++ [self] } }
          | QueueType.INVALID => none
        match routed with
        | none => none
        | some st2 =>
          if queue ≠ QueueType.MAIN then
            -- fetch_add returns the value held before the increment.
            let num_pending_jobs := st2.num_available_jobs
            some ({ st2 with num_available_jobs := num_pending_jobs + 1 },
              if num_pending_jobs ≥ num_workers then [WakeEvent.WakeAll]
              else [WakeEvent.WakeOne])
          else
            some (st2, [])

/-- One iteration's body of the continuation loop in `task::TaskOnFinish`:
read the continuation's `q_type`, exchange it with `k_InvalidQueueType`, and
submit the continuation to the taken queue. -/
def SubmitContinuation (st : JobSystemState) (cur cptr : Nat) :
    Option (JobSystemState × List WakeEvent) :=
  match getTask st cptr with
  | none => none
  | some continuation =>
    TaskSubmit (setTask st cptr { continuation with q_type := QueueType.INVALID })
      cur cptr continuation.q_type

/-- The continuation `while` loop of `task::TaskOnFinish`, walking the linked
list from the head pointer.  The loop has no bound in the source; `fuel`
cuts a (malformed) cyclic list. -/
def DrainContinuations :
    Nat → JobSystemState → Nat → Option Nat → Option (JobSystemState × List WakeEvent)
  | _, st, _, none => some (st, [])
  | 0, _, _, some _ => none
  | fuel + 1, st, cur, some cptr =>
    match getTask st cptr with
    | none => none
    | some continuation =>
      let next_task := continuation.next_continuation
      let st1 := setTask st cptr { continuation with q_type := QueueType.INVALID }
      match TaskSubmit st1 cur cptr continuation.q_type with
      | none => none
      | some (st2, ev1) =>
        match DrainContinuations fuel st2 cur next_task with
        | none => none
        | some (st3, ev2) => some (st3, ev1 ++ ev2)

/-- The tail of `task::TaskOnFinish` once the counter reached zero and the
parent cascade returned: the second `fetch_sub` on `num_unfinished_tasks`
(publishing −1), the continuation drain, and the final `fetch_sub` on
`ref_count`.  `evp` are the wake events already emitted by the parent
cascade. -/
def FinishPublish (st2 : JobSystemState) (cur self : Nat) (evp : List WakeEvent) :
    Option (JobSystemState × List WakeEvent) :=
  match getTask st2 self with
  | none => none
  | some cell2 =>
    let st3 := setTask st2 self
      { cell2 with num_unfinished_tasks := cell2.num_unfinished_tasks - 1 }
    match getTask st3 self with
    | none => none
    | some cell3 =>
      match DrainContinuations (st3.tasks.length + 1) st3 cur
          cell3.first_continuation with
      | none => none
      | some (st4, evc) =>
        match getTask st4 self with
        | none => none
        | some cell4 =>
          some (setTask st4 self { cell4 with ref_count := cell4.ref_count - 1 },
            evp ++ evc)

/-- `task::TaskOnFinish(self)`.  `cur` is the worker executing the finish
(the continuations are submitted through its queues).  The recursion on the
parent chain is bounded by `fuel`; the continuation walk (in `FinishPublish`)
gets `tasks.length + 1` fuel, enough for any list without a cycle. -/
def TaskOnFinish :
    Nat → JobSystemState → Nat → Nat → Option (JobSystemState × List WakeEvent)
  | 0, _, _, _ => none
  | fuel + 1, st, cur, self =>
    match getTask st self with
    | none => none
    | some cell =>
      let num_jobs_left := cell.num_unfinished_tasks - 1
      let st1 := setTask st self { cell with num_unfinished_tasks := num_jobs_left }
      if num_jobs_left = 0 then
        let parentRes : Option (JobSystemState × List WakeEvent) :=
          match cell.parent with
          | some p => TaskOnFinish fuel st1 cur p
          | none => some (st1, [])
        match parentRes with
        | none => none
        | some (st2, evp) => FinishPublish st2 cur self evp
      else
        some (st1, [])

/-- `Job::TaskMake(function, parent)`.  `cur` is the calling worker.  The
pool allocation (free-list + GC pressure loop) is modelled as appending a
fresh cell to the global store; the returned `Nat` is its slot index.  The
`Task::Task` constructor initialises the fields exactly as in the source. -/
def TaskMake (st : JobSystemState) (cur : Nat) (function : Nat)
    (parent : Option Nat) : Option (JobSystemState × Nat) :=
  match st.workers.get? cur with
  | none => none
  | some _ =>
    let newId := st.tasks.length
    let cell : TaskCell :=
      { fn_storage := function
        num_unfinished_tasks := 1
        ref_count := 1
        parent := parent
        first_continuation := none
        next_continuation := none
        owning_worker := cur
        q_type := QueueType.INVALID }
    let st1 := { st with tasks := st.tasks ++ [cell] }
    let st2 : Option JobSystemState :=
      match parent with
      | none => some st1
      | some p =>
        match getTask st1 p with
        | none => none
        | some pcell =>
          some (setTask st1 p
            { pcell with num_unfinished_tasks := pcell.num_unfinished_tasks + 1 })
    match st2 with
    | none => none
    | some st2 =>
      match st2.workers.get? cur with
      | none => none
      | some worker2 =>
        some ({ st2 with
          workers := st2.workers.set cur
            { worker2 with allocated_tasks := worker2.allocated_tasks ++ [newId] } },
          newId)

/-- `Job::TaskAddContinuation(self, continuation, queue)`.  The CAS loop on
`first_continuation` succeeds on the first try in this sequential model. -/
def TaskAddContinuation (st : JobSystemState) (self continuation : Nat)
    (queue : QueueType) : Option JobSystemState :=
  match getTask st self with
  | none => none
  | some scell =>
    match getTask st continuation with
    | none => none
    | some ccell =>
      if scell.q_type ≠ QueueType.INVALID then none
      else if ccell.q_type ≠ QueueType.INVALID then none
      else if ccell.next_continuation ≠ none then none
      else
        let st1 := setTask st continuation
          { ccell with
            q_type := queue
            next_continuation := scell.first_continuation }
        match getTask st1 self with
        | none => none
        | some scell1 =>
          some (setTask st1 self { scell1 with first_continuation := some continuation })

/-- `Job::TaskIsDone(task)`. -/
def TaskIsDone (cell : TaskCell) : Bool :=
  cell.num_unfinished_tasks = -1

/-- Does a task-index chain starting at `head` consist exactly of the list
`conts`, following the `next_continuation` links in `st`? -/
def ContChainB (st : JobSystemState) : Option Nat → List Nat → Bool
  | none, [] => true
  | none, _ :: _ => false
  | some _, [] => false
  | some c, c' :: rest =>
    c = c' &&
      match getTask st c with
      | none => false
      | some cell => ContChainB st cell.next_continuation rest

/-- Submitting every continuation of an explicit list in order, each through
`SubmitContinuation`; the `while` loop of `task::TaskOnFinish` computes this
whenever the `next_continuation` links spell out the list (see
`DrainContinuations_eq_SubmitAll`). -/
def SubmitAll : JobSystemState → Nat → List Nat → Option (JobSystemState × List WakeEvent)
  | st, _, [] => some (st, [])
  | st, cur, c :: rest =>
    match SubmitContinuation st cur c with
    | none => none
    | some (st1, e1) =>
      match SubmitAll st1 cur rest with
      | none => none
      | some (st2, e2) => some (st2, e1 ++ e2)

/-! ## Task user-data (`Job::TaskGetData`) -/

/-- `k_CachelineSize` (the 64-byte fallback of `job_system.cpp`). -/
def k_CachelineSize : Nat := 64

/-- `k_ExpectedTaskSize = std::max(std::size_t(128u), k_CachelineSize)`. -/
def k_ExpectedTaskSize : Nat := max 128 k_CachelineSize

/-- `Task::k_SizeOfMembers`: `TaskFnStorage` (8) + two `AtomicInt32` (4+4) +
`std::uint8_t` (1) + `QueueType` (1) + `TaskPtr` (4) + `AtomicTaskPtr` (4) +
`TaskPtr` (4) + `WorkerID` (2). -/
def k_SizeOfMembers : Nat := 8 + 4 + 4 + 1 + 1 + 4 + 4 + 4 + 2

/-- `Task::k_TaskPaddingDataSize = k_ExpectedTaskSize - k_SizeOfMembers`. -/
def k_TaskPaddingDataSize : Nat := k_ExpectedTaskSize - k_SizeOfMembers

/-- `AlignPointer(ptr, alignment)`: `(uintptr_t)ptr + (alignment-1) & ~(alignment-1)`.
On a `Nat` address and a power-of-two alignment the masked form equals
rounding `ptr + (alignment - 1)` down to a multiple of `alignment`. -/
def AlignPointer (ptr alignment : Nat) : Nat :=
  (ptr + (alignment - 1)) - (ptr + (alignment - 1)) % alignment

/-- The result record of `Job::TaskGetData` (`TaskData`): pointer (`none` for
`nullptr`, otherwise the address) and size in bytes. -/
structure TaskData where
  ptr : Option Nat
  size : Nat
  deriving DecidableEq, Repr

/-- `Job::TaskGetData(task, alignment)`.  `user_data` is the address of the
task's inline buffer `task->user_data` and `user_data_start` the value of
`task->user_data_start`. -/
def TaskGetData (user_data user_data_start alignment : Nat) : TaskData :=
  let user_storage_start := AlignPointer (user_data + user_data_start) alignment
  let user_storage_end := user_data + k_TaskPaddingDataSize
  if user_storage_start ≤ user_storage_end then
    { ptr := some user_storage_start, size := user_storage_end - user_storage_start }
  else
    { ptr := none, size := 0 }

/-! ## Thread-count configuration -/

/-- `Job::NumSystemThreads()` on a multi-threaded platform, as a function of
the value returned by `std::thread::hardware_concurrency()` (the
`IS_SINGLE_THREADED` build returns the constant 1). -/
def NumSystemThreads (hardware_concurrency : Nat) : Nat :=
  if hardware_concurrency ≠ 0 then hardware_concurrency else 1

/-- `Job::JobSystemCreateOptions` (`job_api.hpp`).  The `uint8` / `uint16` /
`uint64` fields are modelled as `Nat`. -/
structure JobSystemCreateOptions where
  num_user_threads : Nat := 0
  num_threads : Nat := 0
  main_queue_size : Nat := 256
  normal_queue_size : Nat := 1024
  worker_queue_size : Nat := 32
  job_steal_rng_seed : Nat := 0
  deriving DecidableEq, Repr

/-- `config::WorkerCount(options)`:
`(options.num_threads ? options.num_threads : WorkerID(NumSystemThreads())) + options.num_user_threads`,
returned as the 16-bit `WorkerID` — both the cast of `NumSystemThreads()`
and the final conversion truncate modulo `2^16`. -/
def WorkerCount (options : JobSystemCreateOptions) (hardware_concurrency : Nat) : Nat :=
  ((if options.num_threads ≠ 0 then options.num_threads
    else NumSystemThreads hardware_concurrency % 65536)
    + options.num_user_threads) % 65536

end BFJob

/-! ## Helper lemmas and claim theorems -/

namespace BFJob


/-- Claim C6: for every SPMC deque of capacity `C` (a power of two) and every
state, `Push(value)` returns `FAILED_SIZE` and leaves the deque unchanged when
`producer_index - consumer_index > C - 1`; otherwise it writes `value` into the
slot at index `producer_index & (C - 1)`, publishes `producer_index + 1` as the
new producer index, and returns `SUCCESS`. -/
theorem spmc_push_spec {α : Type} (d : SPMCDeque α) (v : α)
    (hmask : d.capacityMask = d.capacity - 1) (_hpow : ∃ k : Nat, d.capacity = 2 ^ k) :
    (d.producerIndex - d.consumerIndex > d.capacity - 1 →
      d.Push v = (SPMCDequeStatus.FAILED_SIZE, d)) ∧
    (d.producerIndex - d.consumerIndex ≤ d.capacity - 1 →
      d.Push v = (SPMCDequeStatus.SUCCESS,
        { d with
          data := d.data.set (Int.land d.producerIndex (d.capacity - 1)).toNat v
          producerIndex := d.producerIndex + 1 })) := by
  constructor
  · intro h
    simp only [SPMCDeque.Push, SPMCDeque.slotOf, hmask]
    rw [if_pos h]
  · intro h
    simp only [SPMCDeque.Push, SPMCDeque.slotOf, hmask]
    rw [if_neg (not_lt.mpr h)]

/-- Witness for the push claim: a full capacity-4 deque rejects a push
unchanged, and a non-full one stores at slot `2 & 3 = 2` and bumps the
producer index. -/
theorem spmc_push_witness :
    SPMCDeque.Push ⟨5, 1, [10, 11, 12, 13], 4, 3⟩ (99 : Nat) =
      (SPMCDequeStatus.FAILED_SIZE, ⟨5, 1, [10, 11, 12, 13], 4, 3⟩) ∧
    SPMCDeque.Push ⟨2, 1, [10, 11, 12, 13], 4, 3⟩ (99 : Nat) =
      (SPMCDequeStatus.SUCCESS, ⟨3, 1, [10, 11, 99, 13], 4, 3⟩) := by
  constructor
  · exact (spmc_push_spec _ 99 rfl ⟨2, by norm_num⟩).1 (by decide)
  · have h := (spmc_push_spec (⟨2, 1, [10, 11, 12, 13], 4, 3⟩ : SPMCDeque Nat) 99 rfl
      ⟨2, by norm_num⟩).2 (by decide)
    exact h.trans (by decide)

/-- Claim C7: `Pop` on an empty deque (`consumer_index` greater than the
tentatively decremented `producer_index`) returns `FAILED_SIZE`, restores
`producer_index` to its pre-call value — so the deque state is unchanged —
and does not write the out parameter. -/
theorem spmc_pop_empty_spec {α : Type} [Inhabited α] (d : SPMCDeque α)
    (hempty : d.consumerIndex > d.producerIndex - 1) :
    d.Pop = (SPMCDequeStatus.FAILED_SIZE, none, d) := by
  obtain ⟨p, c, data, cap, mask⟩ := d
  simp only [SPMCDeque.Pop] at *
  rw [if_neg (not_le.mpr hempty)]
  simp [sub_add_cancel]

/-- Witness for the empty-pop claim at a concrete empty deque. -/
theorem spmc_pop_empty_witness :
    SPMCDeque.Pop ⟨0, 0, [5, 6, 7, 8], 4, 3⟩ =
      (SPMCDequeStatus.FAILED_SIZE, (none : Option Nat), ⟨0, 0, [5, 6, 7, 8], 4, 3⟩) :=
  spmc_pop_empty_spec _ (by decide)

/-- Claim C9: for every task and requested alignment, if aligning
`user_data + user_data_start` up to the alignment yields an address past the
end of the task's inline buffer, `TaskGetData` returns a null pointer and
size 0; otherwise it returns the aligned start address and exactly the bytes
from that address to the end of the cell — possibly a size of 0 with a
non-null pointer (third conjunct). -/
theorem taskGetData_spec (user_data user_data_start alignment : Nat) :
    (AlignPointer (user_data + user_data_start) alignment >
        user_data + k_TaskPaddingDataSize →
      TaskGetData user_data user_data_start alignment = { ptr := none, size := 0 }) ∧
    (AlignPointer (user_data + user_data_start) alignment ≤
        user_data + k_TaskPaddingDataSize →
      TaskGetData user_data user_data_start alignment =
        { ptr := some (AlignPointer (user_data + user_data_start) alignment)
          size := user_data + k_TaskPaddingDataSize -
            AlignPointer (user_data + user_data_start) alignment }) ∧
    TaskGetData 0 k_TaskPaddingDataSize 1 =
      { ptr := some k_TaskPaddingDataSize, size := 0 } := by
  refine ⟨fun h => ?_, fun h => ?_, by decide⟩
  · simp only [TaskGetData]
    rw [if_neg (not_le.mpr h)]
  · simp only [TaskGetData]
    rw [if_pos h]

/-- Witness for the user-data claim: an aligned request that overflows the
96-byte buffer yields `(null, 0)`; an in-range one yields the aligned
address and the remaining byte count. -/
theorem taskGetData_witness :
    TaskGetData 0 95 64 = { ptr := none, size := 0 } ∧
    TaskGetData 0 0 64 = { ptr := some 0, size := 96 } := by
  constructor
  · exact (taskGetData_spec 0 95 64).1 (by decide)
  · exact ((taskGetData_spec 0 0 64).2.1 (by decide)).trans (by decide)

/-- Counterexample for claim C10: `NumSystemThreads()` is indeed at least 1,
but the conclusion "a configuration with `num_threads == 0` can never produce
a zero-worker system" fails: `config::WorkerCount` truncates
`NumSystemThreads()` through the 16-bit `WorkerID` cast, so a platform
reporting 65536 hardware threads with `num_threads = 0` and
`num_user_threads = 0` yields a worker count of 0. -/
theorem numSystemThreads_counterexample :
    1 ≤ NumSystemThreads 65536 ∧
    WorkerCount { num_threads := 0, num_user_threads := 0 } 65536 = 0 := by
  constructor
  · decide
  · decide

/-- Claim C10 (amended): `NumSystemThreads()` always returns at least 1, and
returns 1 when the platform reports zero hardware threads; a configuration
with `num_threads == 0` produces at least one worker provided
`NumSystemThreads() + num_user_threads` is below 65536 (the `WorkerID` cast
in `config::WorkerCount` truncates to 16 bits, which is what the
counterexample exploits). -/
theorem numSystemThreads_spec (hardware_concurrency : Nat)
    (options : JobSystemCreateOptions) :
    1 ≤ NumSystemThreads hardware_concurrency ∧
    NumSystemThreads 0 = 1 ∧
    (options.num_threads = 0 →
      NumSystemThreads hardware_concurrency + options.num_user_threads < 65536 →
      1 ≤ WorkerCount options hardware_concurrency) := by
  have h1 : 1 ≤ NumSystemThreads hardware_concurrency := by
    unfold NumSystemThreads; split <;> omega
  refine ⟨h1, by decide, fun h0 hlt => ?_⟩
  unfold WorkerCount
  rw [if_neg (by simp [h0])]
  have h2 : NumSystemThreads hardware_concurrency % 65536 =
      NumSystemThreads hardware_concurrency := Nat.mod_eq_of_lt (by omega)
  rw [h2, Nat.mod_eq_of_lt (by omega)]
  omega

/-- Witness for the amended thread-count claim on a platform reporting 8
hardware threads. -/
theorem numSystemThreads_witness :
    1 ≤ NumSystemThreads 8 ∧
    NumSystemThreads 0 = 1 ∧
    1 ≤ WorkerCount { num_threads := 0, num_user_threads := 0 } 8 :=
  ⟨(numSystemThreads_spec 8 { num_threads := 0, num_user_threads := 0 }).1,
   (numSystemThreads_spec 8 { num_threads := 0, num_user_threads := 0 }).2.1,
   (numSystemThreads_spec 8 { num_threads := 0, num_user_threads := 0 }).2.2 rfl
     (by decide)⟩

theorem getTask_lt {st : JobSystemState} {i : Nat} {c : TaskCell}
    (h : getTask st i = some c) : i < st.tasks.length := by
  have := List.get?_eq_some.mp h
  exact this.1

theorem getTask_setTask_self {st : JobSystemState} {i : Nat} (c : TaskCell)
    (h : i < st.tasks.length) : getTask (setTask st i c) i = some c := by
  simp only [getTask, setTask]
  rw [List.get?_eq_getElem?, List.getElem?_set_eq_of_lt c h]

theorem getTask_setTask_ne {st : JobSystemState} {i j : Nat} (c : TaskCell)
    (h : j ≠ i) : getTask (setTask st i c) j = getTask st j := by
  simp only [getTask, setTask]
  rw [List.get?_eq_getElem?, List.get?_eq_getElem?, List.getElem?_set_ne (Ne.symm h)]

theorem setTask_tasks_length (st : JobSystemState) (i : Nat) (c : TaskCell) :
    (setTask st i c).tasks.length = st.tasks.length := by
  simp [setTask]

theorem taskSubmit_some_shape {st st2 : JobSystemState} {cur self : Nat}
    {queue : QueueType} {ev : List WakeEvent}
    (h : TaskSubmit st cur self queue = some (st2, ev)) :
    ∃ cell q, getTask st self = some cell ∧
      st2.tasks = st.tasks.set self { cell with q_type := q } := by
  unfold TaskSubmit at h
  cases hcell : getTask st self with
  | none => rw [hcell] at h; cases h
  | some cell =>
    rw [hcell] at h
    dsimp only at h
    by_cases hq : cell.q_type ≠ QueueType.INVALID
    · rw [if_pos hq] at h; cases h
    · rw [if_neg hq] at h
      cases hw : st.workers.get? cur with
      | none => rw [hw] at h; cases h
      | some worker =>
        rw [hw] at h
        dsimp only at h

        cases hQ : (if st.workers.length = 1 ∧ queue = QueueType.WORKER then
            QueueType.NORMAL else queue) with
        | NORMAL =>
          rw [hQ] at h
          dsimp only at h
          rw [if_pos (by decide : QueueType.NORMAL ≠ QueueType.MAIN)] at h
          obtain ⟨h1, _⟩ := Prod.mk.injEq .. ▸ (Option.some.injEq _ _ ▸ h)
          exact ⟨cell, QueueType.NORMAL, rfl, by rw [← h1]; rfl⟩
        | MAIN =>
          rw [hQ] at h
          dsimp only at h
          rw [if_neg (by simp : ¬QueueType.MAIN ≠ QueueType.MAIN)] at h
          obtain ⟨h1, _⟩ := Prod.mk.injEq .. ▸ (Option.some.injEq _ _ ▸ h)
          exact ⟨cell, QueueType.MAIN, rfl, by rw [← h1]; rfl⟩
        | WORKER =>
          rw [hQ] at h
          dsimp only at h
          rw [if_pos (by decide : QueueType.WORKER ≠ QueueType.MAIN)] at h
          obtain ⟨h1, _⟩ := Prod.mk.injEq .. ▸ (Option.some.injEq _ _ ▸ h)
          exact ⟨cell, QueueType.WORKER, rfl, by rw [← h1]; rfl⟩
        | INVALID =>
          rw [hQ] at h
          dsimp only at h
          cases h

theorem taskSubmit_getTask_ne {st st2 : JobSystemState} {cur self : Nat}
    {queue : QueueType} {ev : List WakeEvent}
    (h : TaskSubmit st cur self queue = some (st2, ev)) {j : Nat} (hj : j ≠ self) :
    getTask st2 j = getTask st j := by
  obtain ⟨cell, q, _, htasks⟩ := taskSubmit_some_shape h
  simp only [getTask, htasks]
  rw [List.get?_eq_getElem?, List.get?_eq_getElem?, List.getElem?_set_ne (Ne.symm hj)]

theorem taskSubmit_next_preserved {st st2 : JobSystemState} {cur self : Nat}
    {queue : QueueType} {ev : List WakeEvent}
    (h : TaskSubmit st cur self queue = some (st2, ev)) (j : Nat) :
    (getTask st2 j).map TaskCell.next_continuation =
      (getTask st j).map TaskCell.next_continuation := by
  obtain ⟨cell, q, hcell, htasks⟩ := taskSubmit_some_shape h
  by_cases hj : j = self
  · subst hj
    have hlt := getTask_lt hcell
    simp only [getTask, htasks] at *
    rw [List.get?_eq_getElem?, List.getElem?_set_eq_of_lt _ hlt, hcell]
    rfl
  · rw [taskSubmit_getTask_ne h hj]

theorem taskSubmit_tasks_length {st st2 : JobSystemState} {cur self : Nat}
    {queue : QueueType} {ev : List WakeEvent}
    (h : TaskSubmit st cur self queue = some (st2, ev)) :
    st2.tasks.length = st.tasks.length := by
  obtain ⟨cell, q, _, htasks⟩ := taskSubmit_some_shape h
  rw [htasks]; simp

theorem submitContinuation_some_shape {st st2 : JobSystemState} {cur c : Nat}
    {ev : List WakeEvent}
    (h : SubmitContinuation st cur c = some (st2, ev)) :
    ∃ cell q, getTask st c = some cell ∧
      st2.tasks = st.tasks.set c { cell with q_type := q } := by
  unfold SubmitContinuation at h
  cases hcell : getTask st c with
  | none => rw [hcell] at h; cases h
  | some cell =>
    rw [hcell] at h
    dsimp only at h
    obtain ⟨cell1, q1, hc1, ht⟩ := taskSubmit_some_shape h
    have hget : getTask (setTask st c { cell with q_type := QueueType.INVALID }) c =
        some { cell with q_type := QueueType.INVALID } :=
      getTask_setTask_self _ (getTask_lt hcell)
    rw [hget] at hc1
    injection hc1 with hc1
    subst hc1
    refine ⟨cell, q1, rfl, ?_⟩
    rw [ht]
    show (st.tasks.set c _).set c _ = _
    rw [List.set_set]

theorem submitContinuation_getTask_ne {st st2 : JobSystemState} {cur c : Nat}
    {ev : List WakeEvent}
    (h : SubmitContinuation st cur c = some (st2, ev)) {j : Nat} (hj : j ≠ c) :
    getTask st2 j = getTask st j := by
  obtain ⟨cell, q, _, htasks⟩ := submitContinuation_some_shape h
  simp only [getTask, htasks]
  rw [List.get?_eq_getElem?, List.get?_eq_getElem?, List.getElem?_set_ne (Ne.symm hj)]

theorem submitContinuation_next_preserved {st st2 : JobSystemState} {cur c : Nat}
    {ev : List WakeEvent}
    (h : SubmitContinuation st cur c = some (st2, ev)) (j : Nat) :
    (getTask st2 j).map TaskCell.next_continuation =
      (getTask st j).map TaskCell.next_continuation := by
  obtain ⟨cell, q, hcell, htasks⟩ := submitContinuation_some_shape h
  by_cases hj : j = c
  · subst hj
    have hlt := getTask_lt hcell
    simp only [getTask, htasks] at *
    rw [List.get?_eq_getElem?, List.getElem?_set_eq_of_lt _ hlt, hcell]
    rfl
  · rw [submitContinuation_getTask_ne h hj]

theorem submitContinuation_tasks_length {st st2 : JobSystemState} {cur c : Nat}
    {ev : List WakeEvent}
    (h : SubmitContinuation st cur c = some (st2, ev)) :
    st2.tasks.length = st.tasks.length := by
  obtain ⟨cell, q, _, htasks⟩ := submitContinuation_some_shape h
  rw [htasks]; simp

theorem submitAll_preserve {cur : Nat} :
    ∀ {conts : List Nat} {st st2 : JobSystemState} {ev : List WakeEvent},
    SubmitAll st cur conts = some (st2, ev) →
    (∀ j, j ∉ conts → getTask st2 j = getTask st j) ∧
    (∀ j, (getTask st2 j).map TaskCell.next_continuation =
      (getTask st j).map TaskCell.next_continuation) ∧
    st2.tasks.length = st.tasks.length := by
  intro conts
  induction conts with
  | nil =>
    intro st st2 ev h
    simp only [SubmitAll] at h
    obtain ⟨h1, _⟩ := Prod.mk.injEq .. ▸ (Option.some.injEq _ _ ▸ h)
    subst h1
    exact ⟨fun _ _ => rfl, fun _ => rfl, rfl⟩
  | cons c rest ih =>
    intro st st2 ev h
    simp only [SubmitAll] at h
    cases hs : SubmitContinuation st cur c with
    | none => rw [hs] at h; cases h
    | some pr =>
      obtain ⟨st1, e1⟩ := pr
      rw [hs] at h
      dsimp only at h
      cases hr : SubmitAll st1 cur rest with
      | none => rw [hr] at h; cases h
      | some pr2 =>
        obtain ⟨st2', e2⟩ := pr2
        rw [hr] at h
        dsimp only at h
        obtain ⟨h1, _⟩ := Prod.mk.injEq .. ▸ (Option.some.injEq _ _ ▸ h)
        subst h1
        obtain ⟨ihne, ihnext, ihlen⟩ := ih hr
        refine ⟨fun j hj => ?_, fun j => ?_, ?_⟩
        · have hj1 : j ∉ rest := fun hmem => hj (List.mem_cons_of_mem _ hmem)
          have hjc : j ≠ c := fun hc => hj (hc ▸ List.mem_cons_self _ _)
          rw [ihne j hj1, submitContinuation_getTask_ne hs hjc]
        · rw [ihnext j, submitContinuation_next_preserved hs j]
        · rw [ihlen, submitContinuation_tasks_length hs]

theorem setTask_next_preserved {st : JobSystemState} {i : Nat} {cellA : TaskCell}
    (cellB : TaskCell) (hget : getTask st i = some cellA)
    (hnext : cellB.next_continuation = cellA.next_continuation) (j : Nat) :
    (getTask (setTask st i cellB) j).map TaskCell.next_continuation =
      (getTask st j).map TaskCell.next_continuation := by
  by_cases hj : j = i
  · subst hj
    rw [getTask_setTask_self _ (getTask_lt hget), hget]
    simp [hnext]
  · rw [getTask_setTask_ne _ hj]

theorem contChainB_congr {st st2 : JobSystemState}
    (hnext : ∀ j, (getTask st2 j).map TaskCell.next_continuation =
      (getTask st j).map TaskCell.next_continuation) :
    ∀ (head : Option Nat) (conts : List Nat),
      ContChainB st2 head conts = ContChainB st head conts := by
  intro head conts
  induction conts generalizing head with
  | nil => cases head <;> rfl
  | cons c rest ih =>
    cases head with
    | none => rfl
    | some c0 =>
      have hc0 := hnext c0
      simp only [ContChainB]
      cases h1 : getTask st c0 with
      | none =>
        cases h2 : getTask st2 c0 with
        | none => rfl
        | some cc2 => rw [h1, h2] at hc0; cases hc0
      | some cc =>
        cases h2 : getTask st2 c0 with
        | none => rw [h1, h2] at hc0; cases hc0
        | some cc2 =>
          rw [h1, h2] at hc0
          simp only [Option.map_some'] at hc0
          injection hc0 with hc0
          dsimp only
          rw [hc0, ih]

theorem drainContinuations_eq_submitAll {cur : Nat} :
    ∀ (conts : List Nat) (fuel : Nat) (st : JobSystemState) (head : Option Nat),
      ContChainB st head conts = true → conts.length ≤ fuel →
      DrainContinuations fuel st cur head = SubmitAll st cur conts := by
  intro conts
  induction conts with
  | nil =>
    intro fuel st head hchain _
    cases head with
    | none => cases fuel <;> rfl
    | some c => simp [ContChainB] at hchain
  | cons c rest ih =>
    intro fuel st head hchain hlen
    cases head with
    | none => simp [ContChainB] at hchain
    | some c0 =>
      simp only [ContChainB, Bool.and_eq_true, decide_eq_true_eq] at hchain
      obtain ⟨hc0, hrest⟩ := hchain
      subst hc0
      cases fuel with
      | zero => simp at hlen
      | succ f =>
        cases hcell : getTask st c0 with
        | none => rw [hcell] at hrest; cases hrest
        | some cell =>
          rw [hcell] at hrest
          have hlen2 : rest.length ≤ f := by simp at hlen; omega
          show DrainContinuations (f + 1) st cur (some c0) = SubmitAll st cur (c0 :: rest)
          simp only [DrainContinuations, SubmitAll, SubmitContinuation, hcell]
          cases hts : TaskSubmit (setTask st c0 { cell with q_type := QueueType.INVALID })
              cur c0 cell.q_type with
          | none => rfl
          | some pr =>
            obtain ⟨st1, e1⟩ := pr
            have hnext1 : ∀ j, (getTask st1 j).map TaskCell.next_continuation =
                (getTask st j).map TaskCell.next_continuation := by
              intro j
              rw [taskSubmit_next_preserved hts j]
              exact setTask_next_preserved { cell with q_type := QueueType.INVALID } hcell rfl j
            have hchain1 : ContChainB st1 cell.next_continuation rest = true := by
              rw [contChainB_congr hnext1]; exact hrest
            dsimp only
            rw [ih f st1 cell.next_continuation hchain1 hlen2]

theorem taskOnFinish_succ (fuel : Nat) (st : JobSystemState) (cur self : Nat) :
    TaskOnFinish (fuel + 1) st cur self =
      match getTask st self with
      | none => none
      | some cell =>
        let num_jobs_left := cell.num_unfinished_tasks - 1
        let st1 := setTask st self { cell with num_unfinished_tasks := num_jobs_left }
        if num_jobs_left = 0 then
          match (match cell.parent with
                 | some p => TaskOnFinish fuel st1 cur p
                 | none => some (st1, [])) with
          | none => none
          | some (st2, evp) => FinishPublish st2 cur self evp
        else some (st1, []) := rfl

theorem taskOnFinish_nonzero {st : JobSystemState} {cur self fuel : Nat} {cell : TaskCell}
    (hself : getTask st self = some cell) (h : cell.num_unfinished_tasks ≠ 1) :
    TaskOnFinish (fuel + 1) st cur self =
      some (setTask st self
        { cell with num_unfinished_tasks := cell.num_unfinished_tasks - 1 }, []) := by
  rw [taskOnFinish_succ, hself]
  dsimp only
  rw [if_neg (by omega : ¬(cell.num_unfinished_tasks - 1 = 0))]

theorem finishPublish_spec {st2 st4 : JobSystemState} {cur self : Nat}
    {evp evc : List WakeEvent} {cell2 : TaskCell} {conts : List Nat}
    (hself : getTask st2 self = some cell2)
    (hchain : ContChainB st2 cell2.first_continuation conts = true)
    (hnotin : self ∉ conts)
    (hlen : conts.length ≤ st2.tasks.length)
    (hsub : SubmitAll (setTask st2 self
        { cell2 with num_unfinished_tasks := cell2.num_unfinished_tasks - 1 })
      cur conts = some (st4, evc)) :
    FinishPublish st2 cur self evp =
      some (setTask st4 self
        { cell2 with
          num_unfinished_tasks := cell2.num_unfinished_tasks - 1
          ref_count := cell2.ref_count - 1 }, evp ++ evc) := by
  have hlt := getTask_lt hself
  simp only [FinishPublish, hself]
  rw [getTask_setTask_self _ hlt]
  dsimp only
  have hchain3 : ContChainB
      (setTask st2 self { cell2 with num_unfinished_tasks := cell2.num_unfinished_tasks - 1 })
      cell2.first_continuation conts = true := by
    rw [contChainB_congr (fun j => setTask_next_preserved
      { cell2 with num_unfinished_tasks := cell2.num_unfinished_tasks - 1 } hself rfl j)]
    exact hchain
  have hlen3 : conts.length ≤ (setTask st2 self
      { cell2 with num_unfinished_tasks := cell2.num_unfinished_tasks - 1 }).tasks.length + 1 := by
    rw [setTask_tasks_length]; omega
  rw [drainContinuations_eq_submitAll conts _ _ _ hchain3 hlen3, hsub]
  dsimp only
  have h4 : getTask st4 self =
      some { cell2 with num_unfinished_tasks := cell2.num_unfinished_tasks - 1 } := by
    rw [(submitAll_preserve hsub).1 self hnotin, getTask_setTask_self _ hlt]
  rw [h4]

/-- Claim C1: when a task's body returns, the finish routine decrements
`num_unfinished_tasks` by 1; if the result is nonzero it returns with no
other state change (first conjunct, for any state); if the result is zero it
recursively finishes the non-null parent (here: a parent whose own counter
stays nonzero, so the recursive call is exactly one decrement), decrements
`num_unfinished_tasks` once more to −1, walks the continuation list from
`first_continuation` — for each continuation taking its `q_type` (resetting
the field to `INVALID`) and submitting the continuation to that queue, which
is the `SubmitAll` run over the chain `conts` — and finally decrements
`ref_count` by 1 (second conjunct). -/
theorem taskOnFinish_claim
    (st st4 : JobSystemState) (cur self p fuel : Nat) (cell pcell : TaskCell)
    (conts : List Nat) (evc : List WakeEvent)
    (hself : getTask st self = some cell) :
    (cell.num_unfinished_tasks ≠ 1 →
      TaskOnFinish (fuel + 1) st cur self =
        some (setTask st self
          { cell with num_unfinished_tasks := cell.num_unfinished_tasks - 1 }, [])) ∧
    (cell.num_unfinished_tasks = 1 →
      cell.parent = some p →
      p ≠ self →
      getTask st p = some pcell →
      pcell.num_unfinished_tasks ≠ 1 →
      ContChainB st cell.first_continuation conts = true →
      self ∉ conts →
      conts.length ≤ st.tasks.length →
      SubmitAll
        (setTask (setTask st self { cell with num_unfinished_tasks := -1 }) p
          { pcell with num_unfinished_tasks := pcell.num_unfinished_tasks - 1 })
        cur conts = some (st4, evc) →
      TaskOnFinish (fuel + 2) st cur self =
        some (setTask st4 self
          { cell with num_unfinished_tasks := -1, ref_count := cell.ref_count - 1 },
          evc)) := by
  constructor
  · exact fun h => taskOnFinish_nonzero hself h
  · intro h1 hpar hpne hp hpnum hchain hnotin hlen hsub
    obtain ⟨fn, num, ref, par, fc, nc, ow, qt⟩ := cell
    dsimp only at h1 hpar hchain hsub ⊢
    subst hpar
    have hlt := getTask_lt hself
    show TaskOnFinish (fuel + 1 + 1) st cur self = _
    rw [taskOnFinish_succ, hself]
    dsimp only
    rw [if_pos (by omega : num - 1 = 0)]
    have hp1 : getTask (setTask st self ⟨fn, num - 1, ref, some p, fc, nc, ow, qt⟩) p =
        some pcell := by
      rw [getTask_setTask_ne _ hpne]; exact hp
    rw [taskOnFinish_nonzero hp1 hpnum]
    dsimp only
    have hmid : getTask (setTask (setTask st self ⟨fn, num - 1, ref, some p, fc, nc, ow, qt⟩)
        p { pcell with num_unfinished_tasks := pcell.num_unfinished_tasks - 1 }) self =
        some ⟨fn, num - 1, ref, some p, fc, nc, ow, qt⟩ := by
      rw [getTask_setTask_ne _ (Ne.symm hpne)]
      exact getTask_setTask_self _ hlt
    have hchainMid : ContChainB (setTask (setTask st self
          ⟨fn, num - 1, ref, some p, fc, nc, ow, qt⟩)
        p { pcell with num_unfinished_tasks := pcell.num_unfinished_tasks - 1 })
        fc conts = true := by
      rw [contChainB_congr (fun j => setTask_next_preserved
        { pcell with num_unfinished_tasks := pcell.num_unfinished_tasks - 1 } hp1 rfl j)]
      rw [contChainB_congr (fun j => setTask_next_preserved
        ⟨fn, num - 1, ref, some p, fc, nc, ow, qt⟩ hself rfl j)]
      exact hchain
    have hlenMid : conts.length ≤ (setTask (setTask st self
          ⟨fn, num - 1, ref, some p, fc, nc, ow, qt⟩)
        p { pcell with num_unfinished_tasks := pcell.num_unfinished_tasks - 1 }).tasks.length := by
      rw [setTask_tasks_length, setTask_tasks_length]; exact hlen
    have hval : num - 1 - 1 = -1 := by omega
    have hstate : setTask (setTask (setTask st self
          ⟨fn, num - 1, ref, some p, fc, nc, ow, qt⟩)
        p { pcell with num_unfinished_tasks := pcell.num_unfinished_tasks - 1 }) self
        ⟨fn, num - 1 - 1, ref, some p, fc, nc, ow, qt⟩ =
        setTask (setTask st self ⟨fn, -1, ref, some p, fc, nc, ow, qt⟩) p
          { pcell with num_unfinished_tasks := pcell.num_unfinished_tasks - 1 } := by
      rw [hval]
      have e1 : ((st.tasks.set self (⟨fn, num - 1, ref, some p, fc, nc, ow, qt⟩ : TaskCell)).set p
          { pcell with num_unfinished_tasks := pcell.num_unfinished_tasks - 1 }).set self
          (⟨fn, -1, ref, some p, fc, nc, ow, qt⟩ : TaskCell) =
          (st.tasks.set self (⟨fn, -1, ref, some p, fc, nc, ow, qt⟩ : TaskCell)).set p
          { pcell with num_unfinished_tasks := pcell.num_unfinished_tasks - 1 } := by
        rw [List.set_comm _ _ _ hpne, List.set_set]
      exact congrArg (fun L => ({ st with tasks := L } : JobSystemState)) e1
    have hsubMid : SubmitAll (setTask (setTask (setTask st self
          ⟨fn, num - 1, ref, some p, fc, nc, ow, qt⟩)
        p { pcell with num_unfinished_tasks := pcell.num_unfinished_tasks - 1 }) self
        ⟨fn, num - 1 - 1, ref, some p, fc, nc, ow, qt⟩) cur conts = some (st4, evc) := by
      rw [hstate]; exact hsub
    rw [finishPublish_spec hmid hchainMid hnotin hlenMid hsubMid]
    rw [show ((⟨fn, num - 1, ref, some p, fc, nc, ow, qt⟩ : TaskCell).num_unfinished_tasks) - 1
      = -1 from hval]
    simp

/-- Witness for the finish-protocol claim: task 0 (counter 1, parent task 1
with counter 3, one continuation task 2 registered for NORMAL) finishes: its
counter reaches −1, the parent's counter drops to 2, the continuation is
pushed on worker 0's NORMAL deque with one worker woken, and task 0's
`ref_count` drops from 5 to 4. -/
theorem taskOnFinish_claim_witness :
    TaskOnFinish 2
      { tasks := [⟨7, 1, 5, some 1, some 2, none, 0, QueueType.NORMAL⟩,
                  ⟨8, 3, 1, none, none, none, 0, QueueType.NORMAL⟩,
                  ⟨9, 1, 1, none, none, none, 0, QueueType.NORMAL⟩],
        workers := [⟨[], [], []⟩, ⟨[], [], []⟩],
        main_queue := [], num_available_jobs := 0 } 0 0 =
    some ({ tasks := [⟨7, -1, 4, some 1, some 2, none, 0, QueueType.NORMAL⟩,
                      ⟨8, 2, 1, none, none, none, 0, QueueType.NORMAL⟩,
                      ⟨9, 1, 1, none, none, none, 0, QueueType.NORMAL⟩],
            workers := [⟨[2], [], []⟩, ⟨[], [], []⟩],
            main_queue := [], num_available_jobs := 1 }, [WakeEvent.WakeOne]) := by
  have h := (taskOnFinish_claim
    { tasks := [⟨7, 1, 5, some 1, some 2, none, 0, QueueType.NORMAL⟩,
                ⟨8, 3, 1, none, none, none, 0, QueueType.NORMAL⟩,
                ⟨9, 1, 1, none, none, none, 0, QueueType.NORMAL⟩],
      workers := [⟨[], [], []⟩, ⟨[], [], []⟩],
      main_queue := [], num_available_jobs := 0 }
    { tasks := [⟨7, -1, 5, some 1, some 2, none, 0, QueueType.NORMAL⟩,
                ⟨8, 2, 1, none, none, none, 0, QueueType.NORMAL⟩,
                ⟨9, 1, 1, none, none, none, 0, QueueType.NORMAL⟩],
      workers := [⟨[2], [], []⟩, ⟨[], [], []⟩],
      main_queue := [], num_available_jobs := 1 }
    0 0 1 0
    ⟨7, 1, 5, some 1, some 2, none, 0, QueueType.NORMAL⟩
    ⟨8, 3, 1, none, none, none, 0, QueueType.NORMAL⟩
    [2] [WakeEvent.WakeOne] rfl).2
    rfl rfl (by decide) rfl (by decide) (by decide) (by decide) (by decide) (by decide)
  exact h.trans (by decide)

theorem list_get?_set_self {α : Type} (l : List α) (i : Nat) (a : α)
    (h : i < l.length) : (l.set i a).get? i = some a := by
  rw [List.get?_eq_getElem?, List.getElem?_set_eq_of_lt a h]

/-- Claim C4: `TaskSubmit` requires the task's `q_type` to be `INVALID`
(submitting twice is a contract error, first conjunct); it sets `q_type` to
the requested queue, with the collapse of a WORKER submission to NORMAL when
exactly one worker exists, and routes NORMAL to the current worker's NORMAL
deque, WORKER to the current worker's WORKER deque, and MAIN to the global
main-thread locked queue (second conjunct). -/
theorem taskSubmit_routing_claim
    (st : JobSystemState) (cur self : Nat) (queue : QueueType)
    (cell : TaskCell) (worker : WorkerState)
    (hself : getTask st self = some cell)
    (hworker : st.workers.get? cur = some worker) :
    (cell.q_type ≠ QueueType.INVALID → TaskSubmit st cur self queue = none) ∧
    (cell.q_type = QueueType.INVALID →
      (queue = QueueType.NORMAL ∨ queue = QueueType.MAIN ∨ queue = QueueType.WORKER) →
      ∃ st2 evs, TaskSubmit st cur self queue = some (st2, evs) ∧
        (let effq := if st.workers.length = 1 ∧ queue = QueueType.WORKER then
            QueueType.NORMAL else queue
         getTask st2 self = some { cell with q_type := effq } ∧
         (effq = QueueType.NORMAL →
            st2.workers.get? cur =
              some { worker with normal_queue := worker.normal_queue ++ [self] } ∧
            st2.main_queue = st.main_queue) ∧
         (effq = QueueType.WORKER →
            st2.workers.get? cur =
              some { worker with worker_queue := worker.worker_queue ++ [self] } ∧
            st2.main_queue = st.main_queue) ∧
         (effq = QueueType.MAIN →
            st2.main_queue = st.main_queue ++ [self] ∧
            st2.workers = st.workers))) := by
  have hlt := getTask_lt hself
  have hcur : cur < st.workers.length := (List.get?_eq_some.mp hworker).1
  constructor
  · intro hq
    simp only [TaskSubmit, hself]
    rw [if_pos hq]
  · intro hq hvalid
    simp only [TaskSubmit, hself, hworker]
    rw [if_neg (by simp [hq])]
    rcases hvalid with rfl | rfl | rfl
    · rw [if_neg (by simp : ¬(st.workers.length = 1 ∧ QueueType.NORMAL = QueueType.WORKER))]
      dsimp only
      rw [if_pos (by decide : QueueType.NORMAL ≠ QueueType.MAIN)]
      refine ⟨_, _, rfl, ?_⟩
      exact ⟨getTask_setTask_self _ hlt,
        fun _ => ⟨list_get?_set_self st.workers cur _ hcur, rfl⟩,
        fun h => absurd h (by decide), fun h => absurd h (by decide)⟩
    · rw [if_neg (by simp : ¬(st.workers.length = 1 ∧ QueueType.MAIN = QueueType.WORKER))]
      dsimp only
      rw [if_neg (by simp : ¬(QueueType.MAIN ≠ QueueType.MAIN))]
      refine ⟨_, _, rfl, ?_⟩
      exact ⟨getTask_setTask_self _ hlt, fun h => absurd h (by decide),
        fun h => absurd h (by decide), fun _ => ⟨rfl, rfl⟩⟩
    · by_cases hone : st.workers.length = 1
      · rw [if_pos ⟨hone, rfl⟩]
        dsimp only
        rw [if_pos (by decide : QueueType.NORMAL ≠ QueueType.MAIN)]
        refine ⟨_, _, rfl, ?_⟩
        exact ⟨getTask_setTask_self _ hlt,
          fun _ => ⟨list_get?_set_self st.workers cur _ hcur, rfl⟩,
          fun h => absurd h (by decide), fun h => absurd h (by decide)⟩
      · rw [if_neg (by simp [hone] : ¬(st.workers.length = 1 ∧ QueueType.WORKER = QueueType.WORKER))]
        dsimp only
        rw [if_pos (by decide : QueueType.WORKER ≠ QueueType.MAIN)]
        refine ⟨_, _, rfl, ?_⟩
        simp only [hone, false_and, if_false]
        exact ⟨getTask_setTask_self _ hlt, fun h => absurd h (by decide),
          fun _ => ⟨list_get?_set_self st.workers cur _ hcur, rfl⟩,
          fun h => absurd h (by decide)⟩

/-- Witness for the routing claim: submitting an already-submitted task is
rejected, and a WORKER submission on a one-worker system succeeds (collapsed
to NORMAL). -/
theorem taskSubmit_routing_claim_witness :
    TaskSubmit
      { tasks := [⟨0, 1, 1, none, none, none, 0, QueueType.NORMAL⟩],
        workers := [⟨[], [], []⟩], main_queue := [], num_available_jobs := 0 }
      0 0 QueueType.NORMAL = none ∧
    ∃ st2 evs, TaskSubmit
      { tasks := [⟨0, 1, 1, none, none, none, 0, QueueType.INVALID⟩],
        workers := [⟨[], [], []⟩], main_queue := [], num_available_jobs := 0 }
      0 0 QueueType.WORKER = some (st2, evs) := by
  constructor
  · exact (taskSubmit_routing_claim
      { tasks := [⟨0, 1, 1, none, none, none, 0, QueueType.NORMAL⟩],
        workers := [⟨[], [], []⟩], main_queue := [], num_available_jobs := 0 }
      0 0 QueueType.NORMAL ⟨0, 1, 1, none, none, none, 0, QueueType.NORMAL⟩
      ⟨[], [], []⟩ rfl rfl).1 (by decide)
  · obtain ⟨st2, evs, heq, _⟩ := (taskSubmit_routing_claim
      { tasks := [⟨0, 1, 1, none, none, none, 0, QueueType.INVALID⟩],
        workers := [⟨[], [], []⟩], main_queue := [], num_available_jobs := 0 }
      0 0 QueueType.WORKER ⟨0, 1, 1, none, none, none, 0, QueueType.INVALID⟩
      ⟨[], [], []⟩ rfl rfl).2 rfl (Or.inr (Or.inr rfl))
    exact ⟨st2, evs, heq⟩

/-- Counterexample for claim C2 as stated: with 2 workers and
`num_available_jobs = 1`, a NORMAL submission makes the post-increment count
2, which is ≥ `num_workers = 2`, yet the code wakes exactly one worker —
`fetch_add` returns the pre-increment value and the comparison uses that
value, so the claim's "new count ≥ num_workers wakes all" is false. -/
theorem taskSubmit_wake_counterexample :
    (TaskSubmit
      { tasks := [⟨0, 1, 1, none, none, none, 0, QueueType.INVALID⟩],
        workers := [⟨[], [], []⟩, ⟨[], [], []⟩],
        main_queue := [], num_available_jobs := 1 }
      0 0 QueueType.NORMAL).map (fun r => (r.1.num_available_jobs, r.2)) =
      some (2, [WakeEvent.WakeOne]) ∧
    (2 : Nat) ≥
      ({ tasks := [⟨0, 1, 1, none, none, none, 0, QueueType.INVALID⟩],
         workers := [⟨[], [], []⟩, ⟨[], [], []⟩],
         main_queue := [], num_available_jobs := 1 } : JobSystemState).workers.length ∧
    [WakeEvent.WakeOne] ≠ [WakeEvent.WakeAll] := by
  refine ⟨by decide, by decide, by decide⟩

/-- Claim C2 (amended): for every `TaskSubmit` to a queue other than MAIN,
`num_available_jobs` is incremented by 1 and, if the pre-increment count
(equivalently: the post-increment count minus one) is at least `num_workers`,
all workers are woken, otherwise exactly one worker is woken; MAIN
submissions leave `num_available_jobs` unchanged and wake nobody. -/
theorem taskSubmit_wake_spec
    (st : JobSystemState) (cur self : Nat) (queue : QueueType)
    (cell : TaskCell) (worker : WorkerState)
    (hself : getTask st self = some cell)
    (hworker : st.workers.get? cur = some worker)
    (hq : cell.q_type = QueueType.INVALID)
    (hvalid : queue = QueueType.NORMAL ∨ queue = QueueType.MAIN ∨
      queue = QueueType.WORKER) :
    ∃ st2 evs, TaskSubmit st cur self queue = some (st2, evs) ∧
      (queue ≠ QueueType.MAIN →
        st2.num_available_jobs = st.num_available_jobs + 1 ∧
        evs = (if st.num_available_jobs ≥ st.workers.length then [WakeEvent.WakeAll]
               else [WakeEvent.WakeOne])) ∧
      (queue = QueueType.MAIN →
        st2.num_available_jobs = st.num_available_jobs ∧ evs = []) := by
  simp only [TaskSubmit, hself, hworker]
  rw [if_neg (by simp [hq])]
  rcases hvalid with rfl | rfl | rfl
  · rw [if_neg (by simp : ¬(st.workers.length = 1 ∧ QueueType.NORMAL = QueueType.WORKER))]
    dsimp only
    rw [if_pos (by decide : QueueType.NORMAL ≠ QueueType.MAIN)]
    exact ⟨_, _, rfl, fun _ => ⟨rfl, rfl⟩, fun h => absurd h (by decide)⟩
  · rw [if_neg (by simp : ¬(st.workers.length = 1 ∧ QueueType.MAIN = QueueType.WORKER))]
    dsimp only
    rw [if_neg (by simp : ¬(QueueType.MAIN ≠ QueueType.MAIN))]
    exact ⟨_, _, rfl, fun h => absurd rfl h, fun _ => ⟨rfl, rfl⟩⟩
  · by_cases hone : st.workers.length = 1
    · rw [if_pos (⟨hone, rfl⟩ : st.workers.length = 1 ∧ QueueType.WORKER = QueueType.WORKER)]
      dsimp only
      rw [if_pos (by decide : QueueType.NORMAL ≠ QueueType.MAIN)]
      exact ⟨_, _, rfl, fun _ => ⟨rfl, rfl⟩, fun h => absurd h (by decide)⟩
    · rw [if_neg (by simp [hone] :
        ¬(st.workers.length = 1 ∧ QueueType.WORKER = QueueType.WORKER))]
      dsimp only
      rw [if_pos (by decide : QueueType.WORKER ≠ QueueType.MAIN)]
      exact ⟨_, _, rfl, fun _ => ⟨rfl, rfl⟩, fun h => absurd h (by decide)⟩

/-- Witness for the amended wake claim: the concrete submission of the
counterexample yields counter 2 and exactly one woken worker. -/
theorem taskSubmit_wake_spec_witness :
    ∃ st2 evs, TaskSubmit
      { tasks := [⟨0, 1, 1, none, none, none, 0, QueueType.INVALID⟩],
        workers := [⟨[], [], []⟩, ⟨[], [], []⟩],
        main_queue := [], num_available_jobs := 1 }
      0 0 QueueType.NORMAL = some (st2, evs) ∧
      st2.num_available_jobs = 2 ∧ evs = [WakeEvent.WakeOne] := by
  obtain ⟨st2, evs, heq, hwake, _⟩ := taskSubmit_wake_spec
    { tasks := [⟨0, 1, 1, none, none, none, 0, QueueType.INVALID⟩],
      workers := [⟨[], [], []⟩, ⟨[], [], []⟩],
      main_queue := [], num_available_jobs := 1 }
    0 0 QueueType.NORMAL ⟨0, 1, 1, none, none, none, 0, QueueType.INVALID⟩
    ⟨[], [], []⟩ rfl rfl rfl (Or.inl rfl)
  obtain ⟨hnum, hevs⟩ := hwake (by decide)
  exact ⟨st2, evs, heq, hnum.trans (by decide), hevs.trans (by decide)⟩

/-- Claim C5: `TaskMake(fn, parent)` returns a cell with
`num_unfinished_tasks = 1`, `ref_count = 1`, `q_type = INVALID`, `parent` as
given and `owning_worker` the calling worker; when `parent` is non-null the
parent's `num_unfinished_tasks` is incremented by exactly 1; and the new
cell's slot index is appended to the calling worker's live-task table.  Both
conjuncts pin down the entire resulting state. -/
theorem taskMake_claim
    (st : JobSystemState) (cur function : Nat) (worker : WorkerState)
    (hworker : st.workers.get? cur = some worker) :
    (TaskMake st cur function none =
      some ({ st with
        tasks := st.tasks ++
          [(⟨function, 1, 1, none, none, none, cur, QueueType.INVALID⟩ : TaskCell)]
        workers := st.workers.set cur
          { worker with allocated_tasks := worker.allocated_tasks ++ [st.tasks.length] } },
        st.tasks.length)) ∧
    (∀ p pcell, getTask st p = some pcell →
      TaskMake st cur function (some p) =
        some ({ st with
          tasks := (st.tasks ++
            [(⟨function, 1, 1, some p, none, none, cur, QueueType.INVALID⟩ : TaskCell)]).set p
            { pcell with num_unfinished_tasks := pcell.num_unfinished_tasks + 1 }
          workers := st.workers.set cur
            { worker with allocated_tasks := worker.allocated_tasks ++ [st.tasks.length] } },
          st.tasks.length)) := by
  constructor
  · unfold TaskMake
    rw [hworker]
    dsimp only
    rw [hworker]
  · intro p pcell hp
    have hplt := getTask_lt hp
    unfold TaskMake
    rw [hworker]
    dsimp only
    have hp1 : getTask ({ st with tasks := st.tasks ++
        [(⟨function, 1, 1, some p, none, none, cur, QueueType.INVALID⟩ : TaskCell)] }) p =
        some pcell := by
      simp only [getTask]
      rw [List.get?_eq_getElem?, List.getElem?_append_left hplt,
        ← List.get?_eq_getElem?]
      exact hp
    rw [hp1]
    dsimp only [setTask]
    rw [hworker]

/-- Witness for the task-creation claim with and without a parent. -/
theorem taskMake_claim_witness :
    TaskMake
      { tasks := [⟨9, 5, 1, none, none, none, 0, QueueType.NORMAL⟩],
        workers := [⟨[], [], [0]⟩], main_queue := [], num_available_jobs := 0 }
      0 42 none =
      some ({ tasks := [⟨9, 5, 1, none, none, none, 0, QueueType.NORMAL⟩,
                        ⟨42, 1, 1, none, none, none, 0, QueueType.INVALID⟩],
              workers := [⟨[], [], [0, 1]⟩], main_queue := [],
              num_available_jobs := 0 }, 1) ∧
    TaskMake
      { tasks := [⟨9, 5, 1, none, none, none, 0, QueueType.NORMAL⟩],
        workers := [⟨[], [], [0]⟩], main_queue := [], num_available_jobs := 0 }
      0 42 (some 0) =
      some ({ tasks := [⟨9, 6, 1, none, none, none, 0, QueueType.NORMAL⟩,
                        ⟨42, 1, 1, some 0, none, none, 0, QueueType.INVALID⟩],
              workers := [⟨[], [], [0, 1]⟩], main_queue := [],
              num_available_jobs := 0 }, 1) := by
  constructor
  · exact ((taskMake_claim
      { tasks := [⟨9, 5, 1, none, none, none, 0, QueueType.NORMAL⟩],
        workers := [⟨[], [], [0]⟩], main_queue := [], num_available_jobs := 0 }
      0 42 ⟨[], [], [0]⟩ rfl).1).trans (by decide)
  · exact ((taskMake_claim
      { tasks := [⟨9, 5, 1, none, none, none, 0, QueueType.NORMAL⟩],
        workers := [⟨[], [], [0]⟩], main_queue := [], num_available_jobs := 0 }
      0 42 ⟨[], [], [0]⟩ rfl).2 0 ⟨9, 5, 1, none, none, none, 0, QueueType.NORMAL⟩
      rfl).trans (by decide)

/-- Counterexample for claim C3 as stated: `TaskAddContinuation` — which is
not `TaskSubmit` — transitions the continuation's `q_type` from `INVALID` to
`NORMAL` at registration time (first two conjuncts), while performing no
submission (no queue or counter changes, third conjunct).  So the single
`q_type` transition does not happen at submission, and a continuation's
`q_type` later transitions again (reset to `INVALID` and re-set by
`TaskSubmit` during the antecedent's finish). -/
theorem qtype_single_transition_counterexample :
    ((TaskAddContinuation
      { tasks := [⟨0, 1, 1, none, none, none, 0, QueueType.INVALID⟩,
                  ⟨1, 1, 1, none, none, none, 0, QueueType.INVALID⟩],
        workers := [⟨[], [], [0, 1]⟩, ⟨[], [], []⟩],
        main_queue := [], num_available_jobs := 0 }
      0 1 QueueType.NORMAL).bind (fun st1 => getTask st1 1)).map TaskCell.q_type =
      some QueueType.NORMAL ∧
    (getTask
      { tasks := [⟨0, 1, 1, none, none, none, 0, QueueType.INVALID⟩,
                  ⟨1, 1, 1, none, none, none, 0, QueueType.INVALID⟩],
        workers := [⟨[], [], [0, 1]⟩, ⟨[], [], []⟩],
        main_queue := [], num_available_jobs := 0 } 1).map TaskCell.q_type =
      some QueueType.INVALID ∧
    (TaskAddContinuation
      { tasks := [⟨0, 1, 1, none, none, none, 0, QueueType.INVALID⟩,
                  ⟨1, 1, 1, none, none, none, 0, QueueType.INVALID⟩],
        workers := [⟨[], [], [0, 1]⟩, ⟨[], [], []⟩],
        main_queue := [], num_available_jobs := 0 }
      0 1 QueueType.NORMAL).map
        (fun st1 => (st1.workers, st1.main_queue, st1.num_available_jobs)) =
      some ([⟨[], [], [0, 1]⟩, ⟨[], [], []⟩], [], 0) := by
  refine ⟨by decide, by decide, by decide⟩

/-- Claim C3 (amended): a task's `q_type` starts as `INVALID` at creation
(`TaskMake`); `TaskSubmit` and `TaskAddContinuation` both reject a task whose
`q_type` is not `INVALID`; the `INVALID` → queue transition happens either at
submission (`TaskSubmit`, claim C4) or at continuation registration
(`TaskAddContinuation`, fourth conjunct); and the antecedent's finish routine
resets a continuation's `q_type` to `INVALID` immediately before resubmitting
it through `TaskSubmit` (fifth conjunct) — so a continuation's `q_type`
transitions more than once over its lifetime. -/
theorem qtype_transitions_amended
    (st : JobSystemState) (cur cont : Nat) (queue : QueueType) (cell : TaskCell)
    (hcont : getTask st cont = some cell) :
    (∀ function par result, TaskMake st cur function par = some result →
      (getTask result.1 result.2).map TaskCell.q_type = some QueueType.INVALID) ∧
    (cell.q_type ≠ QueueType.INVALID → TaskSubmit st cur cont queue = none) ∧
    (cell.q_type ≠ QueueType.INVALID →
      ∀ self, TaskAddContinuation st self cont queue = none) ∧
    (∀ self scell, self ≠ cont → getTask st self = some scell →
      scell.q_type = QueueType.INVALID → cell.q_type = QueueType.INVALID →
      cell.next_continuation = none →
      ((TaskAddContinuation st self cont queue).bind
        (fun st2 => getTask st2 cont)).map TaskCell.q_type = some queue) ∧
    (SubmitContinuation st cur cont =
      TaskSubmit (setTask st cont { cell with q_type := QueueType.INVALID })
        cur cont cell.q_type) := by
  refine ⟨?_, ?_, ?_, ?_, ?_⟩
  · intro function par result h
    unfold TaskMake at h
    cases hw : st.workers.get? cur with
    | none => rw [hw] at h; cases h
    | some w =>
      rw [hw] at h
      dsimp only at h
      cases par with
      | none =>
        dsimp only at h
        rw [hw] at h
        dsimp only at h
        obtain ⟨h1, h2⟩ := Prod.mk.injEq .. ▸ (Option.some.injEq _ _ ▸ h)
        rw [← h1, ← h2]
        dsimp only [getTask]
        rw [List.get?_eq_getElem?, List.getElem?_concat_length]
        rfl
      | some p =>
        dsimp only at h
        cases hp : getTask ({ st with tasks := st.tasks ++
            [(⟨function, 1, 1, some p, none, none, cur, QueueType.INVALID⟩ : TaskCell)] }) p with
        | none => rw [hp] at h; cases h
        | some pcell =>
          rw [hp] at h
          dsimp only [setTask] at h
          rw [hw] at h
          dsimp only at h
          obtain ⟨h1, h2⟩ := Prod.mk.injEq .. ▸ (Option.some.injEq _ _ ▸ h)
          rw [← h1, ← h2]
          dsimp only [getTask]
          have hplt : p < (st.tasks ++
              [(⟨function, 1, 1, some p, none, none, cur, QueueType.INVALID⟩ : TaskCell)]).length :=
            getTask_lt hp
          by_cases hpe : p = st.tasks.length
          · subst hpe
            rw [List.get?_eq_getElem?, List.getElem?_set_eq_of_lt _ hplt]
            have : pcell = ⟨function, 1, 1, some st.tasks.length, none, none, cur,
                QueueType.INVALID⟩ := by
              have := hp
              dsimp only [getTask] at this
              rw [List.get?_eq_getElem?, List.getElem?_concat_length] at this
              exact (Option.some.injEq _ _ ▸ this).symm
            rw [this]
            rfl
          · rw [List.get?_eq_getElem?, List.getElem?_set_ne hpe,
              List.getElem?_concat_length]
            rfl
  · intro hqne
    simp only [TaskSubmit, hcont]
    rw [if_pos hqne]
  · intro hqne self
    unfold TaskAddContinuation
    cases hs : getTask st self with
    | none => rfl
    | some scell =>
      dsimp only
      rw [hcont]
      dsimp only
      by_cases h1 : scell.q_type ≠ QueueType.INVALID
      · rw [if_pos h1]
      · rw [if_neg h1, if_pos hqne]
  · intro self scell hne hs hsq hcq hnext
    simp only [TaskAddContinuation, hs, hcont]
    rw [if_neg (by simp [hsq]), if_neg (by simp [hcq]), if_neg (by simp [hnext])]
    rw [getTask_setTask_ne _ hne, hs]
    rw [Option.some_bind]
    rw [getTask_setTask_ne _ (Ne.symm hne), getTask_setTask_self _ (getTask_lt hcont)]
    rfl
  · unfold SubmitContinuation
    rw [hcont]

/-- Witness for the amended `q_type` transition claim at concrete states. -/
theorem qtype_transitions_amended_witness :
    (getTask
      { tasks := [⟨0, 1, 1, none, none, none, 0, QueueType.INVALID⟩,
                  ⟨1, 1, 1, none, none, none, 0, QueueType.INVALID⟩,
                  ⟨5, 1, 1, none, none, none, 0, QueueType.INVALID⟩],
        workers := [⟨[], [], [0, 1, 2]⟩, ⟨[], [], []⟩],
        main_queue := [], num_available_jobs := 0 } 2).map TaskCell.q_type =
      some QueueType.INVALID ∧
    TaskSubmit
      { tasks := [⟨0, 1, 1, none, none, none, 0, QueueType.NORMAL⟩],
        workers := [⟨[], [], [0]⟩], main_queue := [], num_available_jobs := 0 }
      0 0 QueueType.NORMAL = none ∧
    TaskAddContinuation
      { tasks := [⟨0, 1, 1, none, none, none, 0, QueueType.NORMAL⟩],
        workers := [⟨[], [], [0]⟩], main_queue := [], num_available_jobs := 0 }
      0 0 QueueType.NORMAL = none ∧
    ((TaskAddContinuation
      { tasks := [⟨0, 1, 1, none, none, none, 0, QueueType.INVALID⟩,
                  ⟨1, 1, 1, none, none, none, 0, QueueType.INVALID⟩],
        workers := [⟨[], [], [0, 1]⟩, ⟨[], [], []⟩],
        main_queue := [], num_available_jobs := 0 }
      0 1 QueueType.NORMAL).bind (fun st2 => getTask st2 1)).map TaskCell.q_type =
      some QueueType.NORMAL ∧
    SubmitContinuation
      { tasks := [⟨0, 1, 1, none, none, none, 0, QueueType.NORMAL⟩],
        workers := [⟨[], [], [0]⟩], main_queue := [], num_available_jobs := 0 }
      0 0 =
      TaskSubmit
        (setTask
          { tasks := [⟨0, 1, 1, none, none, none, 0, QueueType.NORMAL⟩],
            workers := [⟨[], [], [0]⟩], main_queue := [], num_available_jobs := 0 }
          0 ⟨0, 1, 1, none, none, none, 0, QueueType.INVALID⟩)
        0 0 QueueType.NORMAL := by
  refine ⟨?_, ?_, ?_, ?_, ?_⟩
  · exact (qtype_transitions_amended
      { tasks := [⟨0, 1, 1, none, none, none, 0, QueueType.INVALID⟩,
                  ⟨1, 1, 1, none, none, none, 0, QueueType.INVALID⟩],
        workers := [⟨[], [], [0, 1]⟩, ⟨[], [], []⟩],
        main_queue := [], num_available_jobs := 0 }
      0 1 QueueType.NORMAL ⟨1, 1, 1, none, none, none, 0, QueueType.INVALID⟩ rfl).1
      5 none
      ({ tasks := [⟨0, 1, 1, none, none, none, 0, QueueType.INVALID⟩,
                   ⟨1, 1, 1, none, none, none, 0, QueueType.INVALID⟩,
                   ⟨5, 1, 1, none, none, none, 0, QueueType.INVALID⟩],
         workers := [⟨[], [], [0, 1, 2]⟩, ⟨[], [], []⟩],
         main_queue := [], num_available_jobs := 0 }, 2) (by decide)
  · exact (qtype_transitions_amended
      { tasks := [⟨0, 1, 1, none, none, none, 0, QueueType.NORMAL⟩],
        workers := [⟨[], [], [0]⟩], main_queue := [], num_available_jobs := 0 }
      0 0 QueueType.NORMAL ⟨0, 1, 1, none, none, none, 0, QueueType.NORMAL⟩
      rfl).2.1 (by decide)
  · exact (qtype_transitions_amended
      { tasks := [⟨0, 1, 1, none, none, none, 0, QueueType.NORMAL⟩],
        workers := [⟨[], [], [0]⟩], main_queue := [], num_available_jobs := 0 }
      0 0 QueueType.NORMAL ⟨0, 1, 1, none, none, none, 0, QueueType.NORMAL⟩
      rfl).2.2.1 (by decide) 0
  · exact (qtype_transitions_amended
      { tasks := [⟨0, 1, 1, none, none, none, 0, QueueType.INVALID⟩,
                  ⟨1, 1, 1, none, none, none, 0, QueueType.INVALID⟩],
        workers := [⟨[], [], [0, 1]⟩, ⟨[], [], []⟩],
        main_queue := [], num_available_jobs := 0 }
      0 1 QueueType.NORMAL ⟨1, 1, 1, none, none, none, 0, QueueType.INVALID⟩ rfl).2.2.2.1
      0 ⟨0, 1, 1, none, none, none, 0, QueueType.INVALID⟩ (by decide) rfl rfl rfl rfl
  · exact (qtype_transitions_amended
      { tasks := [⟨0, 1, 1, none, none, none, 0, QueueType.NORMAL⟩],
        workers := [⟨[], [], [0]⟩], main_queue := [], num_available_jobs := 0 }
      0 0 QueueType.NORMAL ⟨0, 1, 1, none, none, none, 0, QueueType.NORMAL⟩
      rfl).2.2.2.2


end BFJob
